import Mathlib

/-!
Verification of the cross-detection routine in
`MLX90641_basicRead/cross.cpp` (functions `is_cross` and `find_crosses`).

The C grid `int grid[ROWS][COLS]` is embedded as a total function
`Int → Int → Int`; the C code only reads cells after its own bounds
checks, so the behaviour on in-bounds centers depends only on in-bounds
cells (proved below).  The local variable `current_r` of `find_crosses`
is uninitialized in the source, so `find_crosses` takes its
indeterminate initial value as an explicit parameter `init_r`.
-/

namespace Cross

/-- `#define ROWS 12` -/
def ROWS : Nat := 12

/-- `#define COLS 16` -/
def COLS : Nat := 16

/-- `#define ARM 1` -/
def ARM : Nat := 1

/-- One iteration of the arm-checking loop body of `is_cross`:
the four guarded neighbour tests at distance `i`.  The C body returns 0
when `row - i < 0 || grid[row-i][col] != 1` (and similarly for the other
three directions); `armOK` is the conjunction of the negations of those
four early-exit conditions. -/
def armOK (grid : Int → Int → Int) (row col i : Int) : Bool :=
  (!decide (row - i < 0) && decide (grid (row - i) col = 1)) &&
  (!decide (row + i ≥ (ROWS : Int)) && decide (grid (row + i) col = 1)) &&
  (!decide (col - i < 0) && decide (grid row (col - i) = 1)) &&
  (!decide (col + i ≥ (COLS : Int)) && decide (grid row (col + i) = 1))

/-- `int is_cross(int grid[ROWS][COLS], int row, int col)`:
returns 0 if the center is not 1, then runs `for (i = 1; i <= ARM; i++)`
checking the four arms, returning 0 on any failed check and 1 at the end. -/
def is_cross (grid : Int → Int → Int) (row col : Int) : Int :=
  if grid row col ≠ 1 then 0
  else if (List.range' 1 ARM).all (fun i => armOK grid row col (i : Int)) then 1
  else 0

/-- The loop body of `find_crosses`: `if (is_cross(grid, r, c)) { current_r = r;
current_c = c; found = 1; }`.  The state is `(current_r, current_c, found)`;
the C `if` tests truthiness, i.e. nonzero. -/
def cellStep (grid : Int → Int → Int) (st : Int × Int × Int) (rc : Nat × Nat) :
    Int × Int × Int :=
  if is_cross grid (rc.1 : Int) (rc.2 : Int) ≠ 0 then ((rc.1 : Int), (rc.2 : Int), 1)
  else st

/-- The inner `for (c = 0; c < COLS; c++)` loop of `find_crosses`, iterating
`k` remaining columns starting at column `c` of row `r`. -/
def colLoop (grid : Int → Int → Int) (r : Nat) :
    Nat → Nat → Int × Int × Int → Int × Int × Int
  | _, 0, st => st
  | c, k + 1, st => colLoop grid r (c + 1) k (cellStep grid st (r, c))

/-- The outer `for (r = 0; r < ROWS; r++)` loop of `find_crosses`, iterating
`k` remaining rows starting at row `r`. -/
def rowLoop (grid : Int → Int → Int) :
    Nat → Nat → Int × Int × Int → Int × Int × Int
  | _, 0, st => st
  | r, k + 1, st => rowLoop grid (r + 1) k (colLoop grid r 0 COLS st)

/-- `vector<int> find_crosses(int grid[ROWS][COLS])`.
The source initializes `found = 0` and `current_c = 0` but leaves
`current_r` uninitialized; its indeterminate entry value is the explicit
parameter `init_r`.  The returned vector `[current_r, current_c, found]`
is the triple. -/
def find_crosses (init_r : Int) (grid : Int → Int → Int) : Int × Int × Int :=
  rowLoop grid 0 ROWS (init_r, 0, 0)

/-- All cells of the grid in row-major scan order. -/
def cellList : List (Nat × Nat) :=
  (List.range ROWS).flatMap (fun r => (List.range COLS).map (fun c => (r, c)))

/-- Strict row-major order on coordinates. -/
def rmLt (x y : Nat × Nat) : Prop :=
  x.1 < y.1 ∨ (x.1 = y.1 ∧ x.2 < y.2)

instance (x y : Nat × Nat) : Decidable (rmLt x y) := by unfold rmLt; infer_instance

/-- The truthiness test `if (is_cross(grid, r, c))` as a Boolean predicate
on a cell. -/
def isMatch (grid : Int → Int → Int) (rc : Nat × Nat) : Bool :=
  decide (is_cross grid (rc.1 : Int) (rc.2 : Int) ≠ 0)

/-- The state of `find_crosses` determined by an optional last matching
cell: `none` leaves the initial state, `some rc` gives that cell with
`found = 1`. -/
def resOf (st₀ : Int × Int × Int) : Option (Nat × Nat) → Int × Int × Int
  | none => st₀
  | some rc => ((rc.1 : Int), (rc.2 : Int), 1)

/-- Concrete grid from the spec's scenario: all zeros except the cross
centered at (5, 8). -/
def g58 : Int → Int → Int := fun r c =>
  if (r = 5 ∧ c = 8) ∨ (r = 4 ∧ c = 8) ∨ (r = 6 ∧ c = 8) ∨
     (r = 5 ∧ c = 7) ∨ (r = 5 ∧ c = 9) then 1 else 0

/-- Concrete grid from the spec's corner scenario: all zeros except
`grid[0][0] = 1`. -/
def g00 : Int → Int → Int := fun r c => if r = 0 ∧ c = 0 then 1 else 0

/-- The all-zero grid. -/
def gzero : Int → Int → Int := fun _ _ => 0

/-- Concrete grid with two disjoint crosses, centered at (2, 2) and (8, 11). -/
def g2 : Int → Int → Int := fun r c =>
  if (r = 2 ∧ c = 2) ∨ (r = 1 ∧ c = 2) ∨ (r = 3 ∧ c = 2) ∨
     (r = 2 ∧ c = 1) ∨ (r = 2 ∧ c = 3) ∨
     (r = 8 ∧ c = 11) ∨ (r = 7 ∧ c = 11) ∨ (r = 9 ∧ c = 11) ∨
     (r = 8 ∧ c = 10) ∨ (r = 8 ∧ c = 12) then 1 else 0

/-- The constant grid whose every cell holds 2 (nonzero but not 1). -/
def gtwo : Int → Int → Int := fun _ _ => 2

/-- A coordinate is inside `[0, ROWS) × [0, COLS)`. -/
def inBounds (r c : Int) : Prop :=
  0 ≤ r ∧ r < (ROWS : Int) ∧ 0 ≤ c ∧ c < (COLS : Int)

instance (r c : Int) : Decidable (inBounds r c) := by unfold inBounds; infer_instance

lemma cellStep_of_match {grid : Int → Int → Int} {rc : Nat × Nat}
    (h : isMatch grid rc = true) (st : Int × Int × Int) :
    cellStep grid st rc = ((rc.1 : Int), (rc.2 : Int), 1) := by
  simp only [isMatch, decide_eq_true_eq] at h
  simp [cellStep, h]

lemma cellStep_of_no_match {grid : Int → Int → Int} {rc : Nat × Nat}
    (h : isMatch grid rc = false) (st : Int × Int × Int) :
    cellStep grid st rc = st := by
  simp only [isMatch, decide_eq_false_iff_not, not_not] at h
  simp [cellStep, h]

/-- Folding the loop body over any list of cells yields the last matching
cell of that list (with `found = 1`), or the initial state when no cell
matches. -/
lemma foldl_cellStep_char (grid : Int → Int → Int) :
    ∀ (L : List (Nat × Nat)) (st₀ : Int × Int × Int),
      L.foldl (cellStep grid) st₀ = resOf st₀ (L.filter (isMatch grid)).getLast? := by
  intro L
  induction L with
  | nil => intro st₀; rfl
  | cons rc L ih =>
    intro st₀
    rw [List.foldl_cons, ih, List.filter_cons]
    cases h : isMatch grid rc with
    | false => rw [if_neg (by simp [h]), cellStep_of_no_match h]
    | true =>
      rw [if_pos rfl, cellStep_of_match h]
      cases hfl : L.filter (isMatch grid) with
      | nil => rfl
      | cons x xs =>
        rw [List.getLast?_cons_cons,
          List.getLast?_eq_getLast_of_ne_nil (List.cons_ne_nil x xs)]
        rfl

lemma colLoop_eq (grid : Int → Int → Int) (r : Nat) :
    ∀ (k c : Nat) (st : Int × Int × Int),
      colLoop grid r c k st =
        ((List.range' c k).map (fun c' => (r, c'))).foldl (cellStep grid) st := by
  intro k
  induction k with
  | zero => intro c st; rfl
  | succ k ih =>
    intro c st
    rw [colLoop, List.range'_succ, List.map_cons, List.foldl_cons, ih]

lemma rowLoop_eq (grid : Int → Int → Int) :
    ∀ (k r : Nat) (st : Int × Int × Int),
      rowLoop grid r k st =
        ((List.range' r k).flatMap
          (fun r' => (List.range COLS).map (fun c => (r', c)))).foldl
          (cellStep grid) st := by
  intro k
  induction k with
  | zero => intro r st; rfl
  | succ k ih =>
    intro r st
    rw [rowLoop, List.range'_succ, List.flatMap_cons, List.foldl_append, ih,
      colLoop_eq, List.range_eq_range']

/-- `find_crosses` is the fold of the loop body over the row-major cell list. -/
lemma find_crosses_eq_foldl (init_r : Int) (grid : Int → Int → Int) :
    find_crosses init_r grid = cellList.foldl (cellStep grid) (init_r, 0, 0) := by
  rw [find_crosses, cellList, List.range_eq_range', rowLoop_eq]

/-- `find_crosses` returns the last matching cell of the row-major scan,
or the initial state when no cell matches. -/
lemma find_crosses_char (init_r : Int) (grid : Int → Int → Int) :
    find_crosses init_r grid =
      resOf (init_r, 0, 0) (cellList.filter (isMatch grid)).getLast? := by
  rw [find_crosses_eq_foldl, foldl_cellStep_char]

lemma mem_cellList {rc : Nat × Nat} :
    rc ∈ cellList ↔ rc.1 < ROWS ∧ rc.2 < COLS := by
  obtain ⟨r, c⟩ := rc
  simp only [cellList, List.mem_flatMap, List.mem_range, List.mem_map, Prod.mk.injEq]
  constructor
  · rintro ⟨r', hr', c', hc', rfl, rfl⟩
    exact ⟨hr', hc'⟩
  · rintro ⟨hr, hc⟩
    exact ⟨r, hr, c, hc, rfl, rfl⟩

lemma cellList_pairwise : List.Pairwise rmLt cellList := by
  rw [cellList, List.pairwise_flatMap]
  constructor
  · intro r _
    rw [List.pairwise_map]
    exact (List.pairwise_lt_range COLS).imp (fun h => Or.inr ⟨rfl, h⟩)
  · refine (List.pairwise_lt_range ROWS).imp ?_
    intro r₁ r₂ h x hx y hy
    rw [List.mem_map] at hx hy
    obtain ⟨c₁, _, rfl⟩ := hx
    obtain ⟨c₂, _, rfl⟩ := hy
    exact Or.inl h

lemma pairwise_rel_getLast {α : Type} {R : α → α → Prop} :
    ∀ {l : List α} {a : α}, l.Pairwise R → l.getLast? = some a →
      ∀ x ∈ l, R x a ∨ x = a := by
  intro l
  induction l with
  | nil => intro a _ h; cases h
  | cons b l ih =>
    intro a hp hl x hx
    rw [List.pairwise_cons] at hp
    cases l with
    | nil =>
      simp only [List.getLast?_singleton, Option.some.injEq] at hl
      subst hl
      rw [List.mem_singleton] at hx
      exact Or.inr hx
    | cons c l' =>
      rw [List.getLast?_cons_cons] at hl
      rcases List.mem_cons.mp hx with rfl | hx'
      · left
        have ha : a ∈ c :: l' := by
          obtain ⟨h, rfl⟩ := List.mem_getLast?_eq_getLast hl
          exact List.getLast_mem h
        exact hp.1 a ha
      · exact ih hp.2 hl x hx'

lemma is_cross_def1 (grid : Int → Int → Int) (row col : Int) :
    is_cross grid row col =
      if grid row col ≠ 1 then 0 else if armOK grid row col 1 then 1 else 0 := by
  simp only [is_cross, ARM, List.range', List.all_cons, List.all_nil, Bool.and_true]
  norm_num

lemma armOK_iff (grid : Int → Int → Int) (row col i : Int) :
    armOK grid row col i = true ↔
      (0 ≤ row - i ∧ grid (row - i) col = 1 ∧
       row + i < (ROWS : Int) ∧ grid (row + i) col = 1 ∧
       0 ≤ col - i ∧ grid row (col - i) = 1 ∧
       col + i < (COLS : Int) ∧ grid row (col + i) = 1) := by
  simp only [armOK, Bool.and_eq_true, Bool.not_eq_true', decide_eq_false_iff_not,
    decide_eq_true_eq, not_lt, not_le, and_assoc]

lemma is_cross_zero_or_one (grid : Int → Int → Int) (row col : Int) :
    is_cross grid row col = 0 ∨ is_cross grid row col = 1 := by
  rw [is_cross]
  split_ifs <;> simp

lemma is_cross_eq_one_iff (grid : Int → Int → Int) (row col : Int) :
    is_cross grid row col = 1 ↔ (grid row col = 1 ∧ armOK grid row col 1 = true) := by
  rw [is_cross_def1]
  split_ifs with h1 h2 <;> simp_all

lemma is_cross_eq_one_iff_prop (grid : Int → Int → Int) (row col : Int) :
    is_cross grid row col = 1 ↔
      (grid row col = 1 ∧ 0 ≤ row - 1 ∧ grid (row - 1) col = 1 ∧
       row + 1 < (ROWS : Int) ∧ grid (row + 1) col = 1 ∧
       0 ≤ col - 1 ∧ grid row (col - 1) = 1 ∧
       col + 1 < (COLS : Int) ∧ grid row (col + 1) = 1) := by
  rw [is_cross_eq_one_iff, armOK_iff]

/-- The result of `is_cross` at an in-bounds center only depends on the
in-bounds cells of the grid: every neighbour access is guarded by its
bounds check, so no out-of-bounds cell is read. -/
lemma is_cross_local (grid g' : Int → Int → Int) (row col : Int)
    (hin : inBounds row col)
    (hag : ∀ r c : Int, inBounds r c → grid r c = g' r c) :
    is_cross grid row col = is_cross g' row col := by
  obtain ⟨hr0, hrR, hc0, hcC⟩ := hin
  have key : is_cross grid row col = 1 ↔ is_cross g' row col = 1 := by
    rw [is_cross_eq_one_iff_prop, is_cross_eq_one_iff_prop]
    constructor
    · rintro ⟨hc, hb1, he1, hb2, he2, hb3, he3, hb4, he4⟩
      refine ⟨?_, hb1, ?_, hb2, ?_, hb3, ?_, hb4, ?_⟩
      · rw [← hag row col ⟨hr0, hrR, hc0, hcC⟩]; exact hc
      · rw [← hag (row - 1) col ⟨by omega, by omega, hc0, hcC⟩]; exact he1
      · rw [← hag (row + 1) col ⟨by omega, by omega, hc0, hcC⟩]; exact he2
      · rw [← hag row (col - 1) ⟨hr0, hrR, by omega, by omega⟩]; exact he3
      · rw [← hag row (col + 1) ⟨hr0, hrR, by omega, by omega⟩]; exact he4
    · rintro ⟨hc, hb1, he1, hb2, he2, hb3, he3, hb4, he4⟩
      refine ⟨?_, hb1, ?_, hb2, ?_, hb3, ?_, hb4, ?_⟩
      · rw [hag row col ⟨hr0, hrR, hc0, hcC⟩]; exact hc
      · rw [hag (row - 1) col ⟨by omega, by omega, hc0, hcC⟩]; exact he1
      · rw [hag (row + 1) col ⟨by omega, by omega, hc0, hcC⟩]; exact he2
      · rw [hag row (col - 1) ⟨hr0, hrR, by omega, by omega⟩]; exact he3
      · rw [hag row (col + 1) ⟨hr0, hrR, by omega, by omega⟩]; exact he4
  rcases is_cross_zero_or_one grid row col with a | a <;>
    rcases is_cross_zero_or_one g' row col with b | b
  · omega
  · have := key.mpr b; omega
  · have := key.mp a; omega
  · omega

/-- The last element of the filtered row-major cell list is an in-bounds
matching cell, and every matching cell precedes it (or is it) in
row-major order. -/
lemma getLast_filter_spec (grid : Int → Int → Int) {rc : Nat × Nat}
    (h : (cellList.filter (isMatch grid)).getLast? = some rc) :
    rc.1 < ROWS ∧ rc.2 < COLS ∧ is_cross grid (rc.1 : Int) (rc.2 : Int) ≠ 0 ∧
    ∀ x : Nat × Nat, x ∈ cellList → isMatch grid x = true → rmLt x rc ∨ x = rc := by
  have hmem : rc ∈ cellList.filter (isMatch grid) := by
    obtain ⟨hne, heq⟩ := List.mem_getLast?_eq_getLast (Option.mem_def.mpr h)
    rw [heq]
    exact List.getLast_mem hne
  rw [List.mem_filter] at hmem
  obtain ⟨hmc, hmatch⟩ := hmem
  have hb := mem_cellList.mp hmc
  refine ⟨hb.1, hb.2, ?_, ?_⟩
  · simpa [isMatch] using hmatch
  · intro x hx hpx
    have hpair : (cellList.filter (isMatch grid)).Pairwise rmLt :=
      List.Pairwise.sublist (List.filter_sublist cellList) cellList_pairwise
    exact pairwise_rel_getLast hpair h x (List.mem_filter.mpr ⟨hx, hpx⟩)

/-- C1: for every grid and every in-bounds center `(row, col)`,
`is_cross` returns 1 iff `grid[row][col] = 1` and, for every arm distance
`i` from 1 to `ARM`, the four cells `(row-i, col)`, `(row+i, col)`,
`(row, col-i)`, `(row, col+i)` are all in bounds and all equal to 1. -/
theorem is_cross_spec (grid : Int → Int → Int) (row col : Int)
    (hin : inBounds row col) :
    is_cross grid row col = 1 ↔
      (grid row col = 1 ∧ ∀ i : Nat, 1 ≤ i → i ≤ ARM →
        (inBounds (row - (i : Int)) col ∧ inBounds (row + (i : Int)) col ∧
         inBounds row (col - (i : Int)) ∧ inBounds row (col + (i : Int)) ∧
         grid (row - (i : Int)) col = 1 ∧ grid (row + (i : Int)) col = 1 ∧
         grid row (col - (i : Int)) = 1 ∧ grid row (col + (i : Int)) = 1)) := by
  obtain ⟨hr0, hrR, hc0, hcC⟩ := hin
  rw [is_cross_eq_one_iff_prop]
  simp only [inBounds]
  constructor
  · rintro ⟨hc, hb1, he1, hb2, he2, hb3, he3, hb4, he4⟩
    refine ⟨hc, ?_⟩
    intro i hi1 hi2
    have hi : i = 1 := le_antisymm hi2 hi1
    subst hi
    push_cast
    exact ⟨⟨by omega, by omega, hc0, hcC⟩, ⟨by omega, by omega, hc0, hcC⟩,
      ⟨hr0, hrR, by omega, by omega⟩, ⟨hr0, hrR, by omega, by omega⟩,
      he1, he2, he3, he4⟩
  · rintro ⟨hc, hP⟩
    have h1 := hP 1 le_rfl le_rfl
    push_cast at h1
    obtain ⟨⟨u1, _, _, _⟩, ⟨_, u2, _, _⟩, ⟨_, _, u3, _⟩, ⟨_, _, _, u4⟩,
      he1, he2, he3, he4⟩ := h1
    exact ⟨hc, u1, he1, u2, he2, u3, he3, u4, he4⟩

/-- Witness for C1 at the concrete cross-at-(5,8) grid. -/
theorem is_cross_spec_witness : is_cross g58 5 8 = 1 :=
  (is_cross_spec g58 5 8 (by decide)).mpr
    ⟨by decide, fun i hi1 hi2 => by
      have hi : i = 1 := le_antisymm hi2 hi1
      subst hi
      decide⟩

/-- C2: whenever some cell of the grid matches `is_cross`, `find_crosses`
reports `found = 1` and returns the last matching cell in row-major
order: the matching cell with the greatest row, or equal row and
greatest column. -/
theorem find_crosses_last_match (init_r : Int) (grid : Int → Int → Int)
    (r c : Nat) (hr : r < ROWS) (hc : c < COLS)
    (hm : is_cross grid (r : Int) (c : Int) ≠ 0) :
    (find_crosses init_r grid).2.2 = 1 ∧
    ∃ lr lc : Nat, lr < ROWS ∧ lc < COLS ∧ is_cross grid (lr : Int) (lc : Int) ≠ 0 ∧
      find_crosses init_r grid = ((lr : Int), (lc : Int), 1) ∧
      ∀ r' c' : Nat, r' < ROWS → c' < COLS → is_cross grid (r' : Int) (c' : Int) ≠ 0 →
        r' < lr ∨ (r' = lr ∧ c' ≤ lc) := by
  have hfil : (r, c) ∈ cellList.filter (isMatch grid) :=
    List.mem_filter.mpr ⟨mem_cellList.mpr ⟨hr, hc⟩, by simp [isMatch, hm]⟩
  have hne : cellList.filter (isMatch grid) ≠ [] := by
    intro hnil
    rw [hnil] at hfil
    cases hfil
  obtain ⟨rc, hlast⟩ : ∃ rc, (cellList.filter (isMatch grid)).getLast? = some rc :=
    ⟨_, List.getLast?_eq_getLast_of_ne_nil hne⟩
  obtain ⟨hb1, hb2, hm', hmax⟩ := getLast_filter_spec grid hlast
  refine ⟨?_, rc.1, rc.2, hb1, hb2, hm', ?_, ?_⟩
  · rw [find_crosses_char, hlast]
    rfl
  · rw [find_crosses_char, hlast]
    rfl
  · intro r' c' hr' hc' hm''
    have hcmp := hmax (r', c') (mem_cellList.mpr ⟨hr', hc'⟩) (by simp [isMatch, hm''])
    simp only [rmLt] at hcmp
    rcases hcmp with (h | ⟨h1, h2⟩) | heq
    · exact Or.inl h
    · exact Or.inr ⟨h1, le_of_lt h2⟩
    · rw [Prod.ext_iff] at heq
      exact Or.inr ⟨heq.1, le_of_eq heq.2⟩

/-- Witness for C2 at the two-cross grid: the later cross is reported. -/
theorem find_crosses_last_match_witness :
    (find_crosses 7 g2).2.2 = 1 ∧
    ∃ lr lc : Nat, lr < ROWS ∧ lc < COLS ∧ is_cross g2 (lr : Int) (lc : Int) ≠ 0 ∧
      find_crosses 7 g2 = ((lr : Int), (lc : Int), 1) ∧
      ∀ r' c' : Nat, r' < ROWS → c' < COLS → is_cross g2 (r' : Int) (c' : Int) ≠ 0 →
        r' < lr ∨ (r' = lr ∧ c' ≤ lc) :=
  find_crosses_last_match 7 g2 2 2 (by decide) (by decide) (by decide)

/-- C3: when no cell matches, `find_crosses` reports `found = 0`, the
column component retains its zero initialization, and the row component
retains whatever indeterminate value the uninitialized `current_r` held
at entry. -/
theorem find_crosses_no_match (grid : Int → Int → Int)
    (h : ∀ r : Nat, r < ROWS → ∀ c : Nat, c < COLS →
      is_cross grid (r : Int) (c : Int) = 0)
    (init_r : Int) :
    find_crosses init_r grid = (init_r, 0, 0) := by
  rw [find_crosses_char]
  have hnil : cellList.filter (isMatch grid) = [] := by
    rw [List.filter_eq_nil_iff]
    intro rc hrc
    have hb := mem_cellList.mp hrc
    simp [isMatch, h rc.1 hb.1 rc.2 hb.2]
  rw [hnil]
  rfl

/-- Witness for C3: on the all-zero grid the arbitrary initial row value 7
comes back unchanged with column 0 and found 0. -/
theorem find_crosses_no_match_witness : find_crosses 7 gzero = (7, 0, 0) :=
  find_crosses_no_match gzero (by decide) 7

/-- C4: the found-flag of `find_crosses` is 0 or 1, it is 1 exactly when
some in-bounds cell matches `is_cross`, and on a grid of all zeros it
is 0. -/
theorem find_crosses_found_flag (init_r : Int) (grid : Int → Int → Int) :
    ((find_crosses init_r grid).2.2 = 0 ∨ (find_crosses init_r grid).2.2 = 1) ∧
    ((find_crosses init_r grid).2.2 = 1 ↔
      ∃ r c : Nat, r < ROWS ∧ c < COLS ∧ is_cross grid (r : Int) (c : Int) ≠ 0) ∧
    ((∀ r : Nat, r < ROWS → ∀ c : Nat, c < COLS → grid (r : Int) (c : Int) = 0) →
      (find_crosses init_r grid).2.2 = 0) := by
  rw [find_crosses_char]
  cases hlast : (cellList.filter (isMatch grid)).getLast? with
  | none =>
    have hnil : cellList.filter (isMatch grid) = [] := by
      rwa [List.getLast?_eq_none_iff] at hlast
    refine ⟨Or.inl rfl, ?_, fun _ => rfl⟩
    constructor
    · intro habs
      exact absurd habs (by norm_num [resOf])
    · rintro ⟨r, c, hr, hc, hm⟩
      exfalso
      have hmem : (r, c) ∈ cellList.filter (isMatch grid) :=
        List.mem_filter.mpr ⟨mem_cellList.mpr ⟨hr, hc⟩, by simp [isMatch, hm]⟩
      rw [hnil] at hmem
      cases hmem
  | some rc =>
    obtain ⟨hb1, hb2, hm, _⟩ := getLast_filter_spec grid hlast
    refine ⟨Or.inr rfl, ⟨fun _ => ⟨rc.1, rc.2, hb1, hb2, hm⟩, fun _ => rfl⟩, ?_⟩
    intro hz
    exact absurd (by simp [is_cross, hz rc.1 hb1 rc.2 hb2] :
      is_cross grid (rc.1 : Int) (rc.2 : Int) = 0) hm

/-- C5: an in-bounds center with any arm-distance neighbour out of bounds
is never a cross; `is_cross` reads no out-of-bounds cell (its value only
depends on in-bounds cells); and on the corner grid `g00` the corner is
rejected and no cross is found. -/
theorem is_cross_oob_neighbor (grid : Int → Int → Int) (row col : Int)
    (hin : inBounds row col)
    (hoob : ∃ i : Nat, 1 ≤ i ∧ i ≤ ARM ∧
      (row - (i : Int) < 0 ∨ (ROWS : Int) ≤ row + (i : Int) ∨
       col - (i : Int) < 0 ∨ (COLS : Int) ≤ col + (i : Int))) :
    is_cross grid row col = 0 ∧
    (∀ g' : Int → Int → Int, (∀ r c : Int, inBounds r c → grid r c = g' r c) →
      is_cross grid row col = is_cross g' row col) ∧
    is_cross g00 0 0 = 0 ∧
    (∀ init_r : Int, (find_crosses init_r g00).2.2 = 0) := by
  refine ⟨?_, fun g' hag => is_cross_local grid g' row col hin hag, by decide, ?_⟩
  · obtain ⟨i, hi1, hi2, hor⟩ := hoob
    have hi : i = 1 := le_antisymm hi2 hi1
    subst hi
    push_cast at hor
    rcases is_cross_zero_or_one grid row col with h0 | h1
    · exact h0
    · exfalso
      rw [is_cross_eq_one_iff_prop] at h1
      obtain ⟨_, hb1, _, hb2, _, hb3, _, hb4, _⟩ := h1
      omega
  · intro init_r
    rw [find_crosses_char]
    have hnil : cellList.filter (isMatch g00) = [] := by decide
    rw [hnil]
    rfl

/-- Witness for C5 at the corner grid `g00` with the lone 1 at (0, 0). -/
theorem is_cross_oob_neighbor_witness :
    is_cross g00 0 0 = 0 ∧
    (∀ g' : Int → Int → Int, (∀ r c : Int, inBounds r c → g00 r c = g' r c) →
      is_cross g00 0 0 = is_cross g' 0 0) ∧
    is_cross g00 0 0 = 0 ∧
    (∀ init_r : Int, (find_crosses init_r g00).2.2 = 0) :=
  is_cross_oob_neighbor g00 0 0 (by decide) ⟨1, le_rfl, le_rfl, by decide⟩

/-- C6: an in-bounds cell whose value is not 1 (truthiness is irrelevant:
the test is strict equality to 1) is never a cross, whatever its
neighbours hold. -/
theorem is_cross_center_not_one (grid : Int → Int → Int) (row col : Int)
    (_hin : inBounds row col) (h : grid row col ≠ 1) :
    is_cross grid row col = 0 := by
  rw [is_cross, if_pos h]

/-- Witness for C6 on the all-2 grid: 2 is nonzero yet not 1, so no cross. -/
theorem is_cross_center_not_one_witness : is_cross gtwo 0 0 = 0 :=
  is_cross_center_not_one gtwo 0 0 (by decide) (by decide)

/-- C7: when exactly one cell matches `is_cross`, `find_crosses` returns
that cell's coordinates with `found = 1`. -/
theorem find_crosses_unique_cross (init_r : Int) (grid : Int → Int → Int)
    (r c : Nat) (hr : r < ROWS) (hc : c < COLS)
    (hm : is_cross grid (r : Int) (c : Int) ≠ 0)
    (huniq : ∀ r' : Nat, r' < ROWS → ∀ c' : Nat, c' < COLS →
      is_cross grid (r' : Int) (c' : Int) ≠ 0 → r' = r ∧ c' = c) :
    find_crosses init_r grid = ((r : Int), (c : Int), 1) := by
  have hfil : (r, c) ∈ cellList.filter (isMatch grid) :=
    List.mem_filter.mpr ⟨mem_cellList.mpr ⟨hr, hc⟩, by simp [isMatch, hm]⟩
  have hne : cellList.filter (isMatch grid) ≠ [] := by
    intro hnil
    rw [hnil] at hfil
    cases hfil
  obtain ⟨rc, hlast⟩ : ∃ rc, (cellList.filter (isMatch grid)).getLast? = some rc :=
    ⟨_, List.getLast?_eq_getLast_of_ne_nil hne⟩
  obtain ⟨hb1, hb2, hm', _⟩ := getLast_filter_spec grid hlast
  obtain ⟨e1, e2⟩ := huniq rc.1 hb1 rc.2 hb2 hm'
  rw [find_crosses_char, hlast]
  simp only [resOf, e1, e2]

/-- Witness for C7: the spec's concrete scenario, the single cross at
(5, 8) of `g58`, is found with `found = 1`. -/
theorem find_crosses_unique_cross_witness :
    find_crosses 7 g58 = (((5 : Nat) : Int), ((8 : Nat) : Int), 1) :=
  find_crosses_unique_cross 7 g58 5 8 (by decide) (by decide) (by decide) (by decide)

set_option maxRecDepth 100000 in
/-- C8: `find_crosses` always terminates: its nested scan is exactly a
fold over the finite row-major cell list, which has `ROWS * COLS = 192`
cells. -/
theorem find_crosses_total_scan (init_r : Int) (grid : Int → Int → Int) :
    find_crosses init_r grid = cellList.foldl (cellStep grid) (init_r, 0, 0) ∧
    cellList.length = ROWS * COLS :=
  ⟨find_crosses_eq_foldl init_r grid, by decide⟩

/-- C9: at every in-bounds center the `int` returned by `is_cross` is
exactly 0 or 1. -/
theorem is_cross_returns_bool (grid : Int → Int → Int) (row col : Int)
    (_hin : inBounds row col) :
    is_cross grid row col = 0 ∨ is_cross grid row col = 1 :=
  is_cross_zero_or_one grid row col

/-- Witness for C9 at a concrete cell of the `g58` grid. -/
theorem is_cross_returns_bool_witness :
    is_cross g58 0 0 = 0 ∨ is_cross g58 0 0 = 1 :=
  is_cross_returns_bool g58 0 0 (by decide)

/-- C10: whenever `find_crosses` reports `found = 1`, the returned
coordinates are in bounds and are themselves a valid cross center. -/
theorem find_crosses_found_sound (init_r : Int) (grid : Int → Int → Int)
    (h : (find_crosses init_r grid).2.2 = 1) :
    inBounds (find_crosses init_r grid).1 (find_crosses init_r grid).2.1 ∧
    is_cross grid (find_crosses init_r grid).1 (find_crosses init_r grid).2.1 = 1 := by
  rw [find_crosses_char] at h ⊢
  cases hlast : (cellList.filter (isMatch grid)).getLast? with
  | none =>
    rw [hlast] at h
    norm_num [resOf] at h
  | some rc =>
    obtain ⟨hb1, hb2, hm, _⟩ := getLast_filter_spec grid hlast
    have h1 : is_cross grid (rc.1 : Int) (rc.2 : Int) = 1 := by
      rcases is_cross_zero_or_one grid (rc.1 : Int) (rc.2 : Int) with h0 | h1
      · exact absurd h0 hm
      · exact h1
    simp only [resOf, inBounds]
    exact ⟨⟨by omega, by omega, by omega, by omega⟩, h1⟩

/-- Witness for C10 at the single-cross grid `g58`. -/
theorem find_crosses_found_sound_witness :
    inBounds (find_crosses 7 g58).1 (find_crosses 7 g58).2.1 ∧
    is_cross g58 (find_crosses 7 g58).1 (find_crosses 7 g58).2.1 = 1 :=
  find_crosses_found_sound 7 g58 (by decide)

end Cross
